import Mathlib

/-!
Shallow embedding of the BioIntel sequence-processing logic.

Strings from the TypeScript source are modelled as `List Char`.  The
relevant source functions are:

* `calculateSimilarity`, `classifyTB`, `getFirstSequence`
  (src/app/checker/page.tsx),
* `parseFastaContent` (src/components/fasta-context.tsx),
* `parseSequenceFile` (src/app/resistance/page.tsx),
* `parseCSVFile` (src/app/predictor/page.tsx),
* `getResultText` (similarity-result component, src/unnamed/part_004),
* `predictResistance` (src/components/resistance-predictor.tsx).

JavaScript numbers on the similarity path are modelled as rationals `ℚ`:
every value actually produced is an exact division of small integers, and
the claims are about the mathematical values.
-/

namespace BioIntel

/-- Characters removed by JavaScript `String.prototype.trim` (ASCII part of
the whitespace class; the source never feeds non-ASCII whitespace). -/
def isJsWhitespace (c : Char) : Bool :=
  c = ' ' || c = '\t' || c = '\n' || c = '\r' || c = '\x0b' || c = '\x0c'

/-- `line.trim()` on a list of characters. -/
def trim (l : List Char) : List Char :=
  ((l.dropWhile isJsWhitespace).reverse.dropWhile isJsWhitespace).reverse

/-- ASCII uppercasing, as `String.prototype.toUpperCase` acts on the
ASCII sequences this code handles. -/
def upperList (l : List Char) : List Char :=
  l.map Char.toUpper

/-- A character matched by the case-insensitive class `[ATGCN]` of the
regex `/[^ATGCN]/gi` used in `getFirstSequence`. -/
def isBaseCI (c : Char) : Bool :=
  c = 'A' || c = 'T' || c = 'G' || c = 'C' || c = 'N' ||
  c = 'a' || c = 't' || c = 'g' || c = 'c' || c = 'n'

/-- `s.replace(/[^ATGCN]/gi, "N")` acting on one character. -/
def cleanChar (c : Char) : Char :=
  if isBaseCI c then c else 'N'

/-- `s.replace(/[^ATGCN]/gi, "N")` on a whole string. -/
def cleanLine (l : List Char) : List Char :=
  l.map cleanChar

/-- The uppercase alphabet {A,T,G,C,N} of the `NucleotideSequence`
data-model invariant, and of the regex `/^[ATGCN]+$/` in
`parseFastaContent`. -/
def isUpperBase (c : Char) : Bool :=
  c = 'A' || c = 'T' || c = 'G' || c = 'C' || c = 'N'

/-- The test `/^[ATGCN]+$/.test(s)` from `parseFastaContent`: at least one
character, and every character in the uppercase alphabet. -/
def validBasesTest (l : List Char) : Bool :=
  !l.isEmpty && l.all isUpperBase

/-- `text.split("\n")` (used by `parseFastaContent` and `parseCSVFile`). -/
def splitNL (l : List Char) : List (List Char) :=
  l.splitOn '\n'

/-- `text.split(/\r?\n/)` (used by `getFirstSequence`): each `"\n"` ends a
line and consumes one immediately preceding `"\r"`. -/
def splitCRLF : List Char → List (List Char)
  | [] => [[]]
  | '\r' :: '\n' :: rest => [] :: splitCRLF rest
  | '\n' :: rest => [] :: splitCRLF rest
  | c :: rest =>
    match splitCRLF rest with
    | [] => [[c]]
    | h :: t => (c :: h) :: t

/-- Does the line start with the FASTA header mark, `line.startsWith(">")`. -/
def startsWithGt (l : List Char) : Bool :=
  match l with
  | '>' :: _ => true
  | _ => false

/-! ### Positional similarity scorer (src/app/checker/page.tsx) -/

/-- The match-counting loop of `calculateSimilarity`: walk both sequences
in step over the length of the shorter one, counting equal positions. -/
def countMatches : List Char → List Char → Nat
  | a :: as, b :: bs => (if a = b then 1 else 0) + countMatches as bs
  | _, _ => 0

/-- `calculateSimilarity(seq1, seq2)`: 0 when the shorter sequence is
empty, else `(matches / length) * 100` over the shared prefix length. -/
def calculateSimilarity (seq1 seq2 : List Char) : ℚ :=
  let length := min seq1.length seq2.length
  if length = 0 then 0
  else ((countMatches seq1 seq2 : ℚ) / (length : ℚ)) * 100

/-- The three classification buckets of the checker page. -/
inductive TBClass where
  | strongEvidence
  | possibleMatch
  | noMatch
  deriving DecidableEq, Repr

/-- The branch structure of `classifyTB(matchPercent)`: the function
formats a message, whose three-way choice is the classification. -/
def classifyTB (matchPercent : ℚ) : TBClass :=
  if matchPercent ≥ 80 then .strongEvidence
  else if matchPercent ≥ 50 then .possibleMatch
  else .noMatch

/-- `getResultText()` from the similarity-result component
(src/unnamed/part_004), with its literal labels. -/
def getResultText (similarity : ℚ) : List Char :=
  if similarity ≥ 80 then "Strong TB Evidence".toList
  else if similarity ≥ 50 then "Possible TB-Related Strain".toList
  else "Not TB".toList

/-- Number of positions `i` in `0..L-1` with `seq1[i] == seq2[i]`, stated
the way claim C1 states it, by quantifying over positions. -/
def positionMatches (seq1 seq2 : List Char) : Nat :=
  ((List.range (min seq1.length seq2.length)).filter
    (fun i => seq1.get? i = seq2.get? i)).length

theorem countMatches_nil_right (l : List Char) : countMatches l [] = 0 := by
  cases l <;> rfl

theorem positionMatches_cons (a b : Char) (as bs : List Char) :
    positionMatches (a :: as) (b :: bs) =
      (if a = b then 1 else 0) + positionMatches as bs := by
  unfold positionMatches
  have hmin : min (a :: as).length (b :: bs).length = min as.length bs.length + 1 := by
    simp [Nat.succ_min_succ]
  rw [hmin, List.range_succ_eq_map, List.filter_cons]
  by_cases hab : a = b
  · subst hab
    simp [List.filter_map, Function.comp_def, List.getElem?_cons_succ, Nat.add_comm]
  · simp [hab, List.filter_map, Function.comp_def, List.getElem?_cons_succ]

theorem countMatches_eq_positionMatches (s1 s2 : List Char) :
    countMatches s1 s2 = positionMatches s1 s2 := by
  induction s1 generalizing s2 with
  | nil => cases s2 <;> simp [countMatches, positionMatches]
  | cons a as ih =>
    cases s2 with
    | nil => simp [countMatches, positionMatches]
    | cons b bs =>
      rw [positionMatches_cons]
      simp [countMatches, ih]

theorem countMatches_take (s1 s2 : List Char) (L : Nat) :
    countMatches (s1.take L) (s2.take L) =
      countMatches s1 s2 - countMatches (s1.drop L) (s2.drop L) := by
  induction L generalizing s1 s2 with
  | zero => simp [countMatches]
  | succ n ih =>
    cases s1 with
    | nil => simp [countMatches]
    | cons a as =>
      cases s2 with
      | nil => simp [countMatches, countMatches_nil_right]
      | cons b bs =>
        simp only [List.take_succ_cons, List.drop_succ_cons, countMatches, ih]
        have hle : countMatches (as.drop n) (bs.drop n) ≤ countMatches as bs := by
          clear ih
          induction n generalizing as bs with
          | zero => simp
          | succ m ih2 =>
            cases as with
            | nil => simp [countMatches]
            | cons x xs =>
              cases bs with
              | nil => simp [countMatches, countMatches_nil_right]
              | cons y ys =>
                simp only [List.drop_succ_cons, countMatches]
                exact le_trans (ih2 xs ys) (Nat.le_add_left _ _)
        omega

theorem countMatches_drop_min (s1 s2 : List Char) :
    countMatches (s1.drop (min s1.length s2.length))
      (s2.drop (min s1.length s2.length)) = 0 := by
  rcases Nat.le_total s1.length s2.length with h | h
  · have : s1.drop (min s1.length s2.length) = [] := by
      simp [Nat.min_eq_left h]
    rw [this]; rfl
  · have : s2.drop (min s1.length s2.length) = [] := by
      simp [Nat.min_eq_right h]
    rw [this, countMatches_nil_right]

theorem countMatches_self (s : List Char) : countMatches s s = s.length := by
  induction s with
  | nil => rfl
  | cons a as ih => simp [countMatches, ih, Nat.add_comm]

theorem countMatches_take_min (s1 s2 : List Char) :
    countMatches (s1.take (min s1.length s2.length))
      (s2.take (min s1.length s2.length)) = countMatches s1 s2 := by
  rw [countMatches_take, countMatches_drop_min, Nat.sub_zero]

/-- C1: the similarity scorer returns 0 when the shorter input is empty,
otherwise `100 * matches / L` where `L` is the shorter length and matches
counts the positions below `L` where the sequences agree; everything past
the shorter sequence is ignored (truncating both inputs to `L` does not
change the score). -/
theorem claim_C1_similarity_formula (seq1 seq2 : List Char) :
    (min seq1.length seq2.length = 0 → calculateSimilarity seq1 seq2 = 0) ∧
    (min seq1.length seq2.length ≠ 0 →
      calculateSimilarity seq1 seq2 =
        100 * (positionMatches seq1 seq2 : ℚ) /
          ((min seq1.length seq2.length : Nat) : ℚ)) ∧
    calculateSimilarity seq1 seq2 =
      calculateSimilarity (seq1.take (min seq1.length seq2.length))
        (seq2.take (min seq1.length seq2.length)) := by
  refine ⟨fun h => ?_, fun h => ?_, ?_⟩
  · simp [calculateSimilarity, h]
  · simp only [calculateSimilarity, if_neg h, countMatches_eq_positionMatches]
    ring
  · have hlen1 : (seq1.take (min seq1.length seq2.length)).length =
        min seq1.length seq2.length := by
      simp [List.length_take]
    have hlen2 : (seq2.take (min seq1.length seq2.length)).length =
        min seq1.length seq2.length := by
      simp [List.length_take]
    simp only [calculateSimilarity, hlen1, hlen2, min_self, countMatches_take_min]

/-- Witness for C1 at the spec scenario pair "ATGC" / "ATGG". -/
theorem claim_C1_similarity_formula_witness :
    calculateSimilarity "ATGC".toList "ATGG".toList =
      100 * (positionMatches "ATGC".toList "ATGG".toList : ℚ) /
        ((min "ATGC".toList.length "ATGG".toList.length : Nat) : ℚ) :=
  (claim_C1_similarity_formula "ATGC".toList "ATGG".toList).2.1 (by decide)

/-- C2: classification uses inclusive lower bounds: similarity ≥ 80 is
StrongEvidence, 50 ≤ similarity < 80 is PossibleMatch, similarity < 50 is
NoMatch; exactly 80 gives StrongEvidence and exactly 50 gives
PossibleMatch, in both `classifyTB` and the result component's
`getResultText`. -/
theorem claim_C2_classification_boundaries (q : ℚ) :
    (80 ≤ q → classifyTB q = .strongEvidence ∧
      getResultText q = "Strong TB Evidence".toList) ∧
    (50 ≤ q → q < 80 → classifyTB q = .possibleMatch ∧
      getResultText q = "Possible TB-Related Strain".toList) ∧
    (q < 50 → classifyTB q = .noMatch ∧ getResultText q = "Not TB".toList) ∧
    (classifyTB 80 = .strongEvidence ∧
      getResultText 80 = "Strong TB Evidence".toList) ∧
    (classifyTB 50 = .possibleMatch ∧
      getResultText 50 = "Possible TB-Related Strain".toList) := by
  refine ⟨fun h => ?_, fun h1 h2 => ?_, fun h => ?_, ?_, ?_⟩
  · simp [classifyTB, getResultText, ge_iff_le, h]
  · have hn : ¬ (80 ≤ q) := not_le.mpr h2
    simp [classifyTB, getResultText, ge_iff_le, hn, h1]
  · have h1 : ¬ (80 ≤ q) := not_le.mpr (lt_trans h (by norm_num))
    have h2 : ¬ (50 ≤ q) := not_le.mpr h
    simp [classifyTB, getResultText, ge_iff_le, h1, h2]
  · constructor <;> norm_num [classifyTB, getResultText]
  · constructor <;> norm_num [classifyTB, getResultText]

/-- Witness for C2 at similarity exactly 80. -/
theorem claim_C2_classification_boundaries_witness :
    classifyTB 80 = TBClass.strongEvidence ∧
      getResultText 80 = "Strong TB Evidence".toList :=
  (claim_C2_classification_boundaries 80).1 (by norm_num)

/-- C9: comparing a non-empty sequence with itself scores exactly 100. -/
theorem claim_C9_self_similarity (seq : List Char) (h : seq ≠ []) :
    calculateSimilarity seq seq = 100 := by
  unfold calculateSimilarity
  have hlen : seq.length ≠ 0 := by
    simpa [List.length_eq_zero] using h
  rw [min_self, if_neg hlen, countMatches_self]
  have hq : ((seq.length : Nat) : ℚ) ≠ 0 := by exact_mod_cast hlen
  rw [div_self hq, one_mul]

/-- Witness for C9 on the concrete sequence "ATGC". -/
theorem claim_C9_self_similarity_witness :
    calculateSimilarity "ATGC".toList "ATGC".toList = 100 :=
  claim_C9_self_similarity "ATGC".toList (by decide)

/-! ### FASTA parsing in the shared context (src/components/fasta-context.tsx) -/

/-- The two failure messages `parseFastaContent` can report (the
try/catch fallback is unreachable for pure string input). -/
inductive FCError where
  /-- "No valid DNA sequence found in file" -/
  | noValidSequence
  /-- "Invalid DNA sequence. Only A, T, G, C, N bases are allowed." -/
  | invalidAlphabet
  deriving DecidableEq, Repr

/-- The record `{ sequence, isValid, error? }` returned by
`parseFastaContent`. -/
structure FCResult where
  sequence : List Char
  isValid : Bool
  error : Option FCError
  deriving DecidableEq, Repr

/-- The line loop of `parseFastaContent`: headers on untrimmed lines, stop
at the second header, collect trimmed uppercased non-blank lines once the
first header was seen. -/
def fcLoop (found : Bool) : List (List Char) → List (List Char)
  | [] => []
  | line :: rest =>
    if startsWithGt line then
      if found then [] else fcLoop true rest
    else if found && !(trim line).isEmpty then
      upperList (trim line) :: fcLoop found rest
    else fcLoop found rest

/-- `parseFastaContent(content)` from the FASTA context provider. -/
def parseFastaContent (content : List Char) : FCResult :=
  let sequenceLines := fcLoop false (splitNL content)
  if sequenceLines.isEmpty then
    ⟨[], false, some .noValidSequence⟩
  else
    let parsedSequence := sequenceLines.flatten
    if !validBasesTest parsedSequence then
      ⟨parsedSequence, false, some .invalidAlphabet⟩
    else
      ⟨parsedSequence, true, none⟩

/-! ### First-sequence extraction in the TB checker (src/app/checker/page.tsx) -/

/-- A browser `File` as the parsing code sees it: a declared byte size and
the text obtained from `file.text()`. -/
structure JsFile where
  size : Nat
  text : List Char
  deriving DecidableEq, Repr

/-- The errors `getFirstSequence` can throw (the read-failure path is
host I/O and outside the embedding). -/
inductive GFSError where
  /-- "File is empty" -/
  | emptyFile
  /-- "File too large. Maximum size is 3GB." -/
  | fileTooLarge
  /-- "File appears to be empty" -/
  | emptyText
  /-- "File must be FASTA (starts with >) or FASTQ (starts with @)" -/
  | invalidFormat
  /-- "No valid sequence found or sequence too short" -/
  | sequenceTooShort
  deriving DecidableEq, Repr

/-- The FASTA accumulation loop of `getFirstSequence`: headers on trimmed
lines, blank lines skipped, out-of-alphabet characters coerced to N. -/
def fastaLoop (found : Bool) : List (List Char) → List Char
  | [] => []
  | line :: rest =>
    let trimmedLine := trim line
    if trimmedLine.isEmpty then fastaLoop found rest
    else if startsWithGt trimmedLine then
      if found then [] else fastaLoop true rest
    else if found then cleanLine trimmedLine ++ fastaLoop found rest
    else fastaLoop found rest

/-- The FASTQ branch of `getFirstSequence`: drop blank lines, take the raw
second line if at least 4 lines remain, coercing bad characters to N. -/
def fastqExtract (t : List Char) : List Char :=
  let lines := (splitCRLF t).filter (fun l => !(trim l).isEmpty)
  if 4 ≤ lines.length then cleanLine (lines.getD 1 []) else []

/-- Format dispatch of `getFirstSequence` on the first character of the
trimmed text. -/
def extractSequence (trimmedText : List Char) : Except GFSError (List Char) :=
  match trimmedText with
  | '>' :: _ => .ok (fastaLoop false (splitCRLF trimmedText))
  | '@' :: _ => .ok (fastqExtract trimmedText)
  | _ => .error .invalidFormat

/-- `getFirstSequence(file)` from the TB-checker page. -/
def getFirstSequence (f : JsFile) : Except GFSError (List Char) :=
  if f.size = 0 then .error .emptyFile
  else if f.size > 3 * 1024 * 1024 * 1024 then .error .fileTooLarge
  else if (trim f.text).isEmpty then .error .emptyText
  else
    match extractSequence (trim f.text) with
    | .error e => .error e
    | .ok sequence =>
      if sequence.length < 10 then .error .sequenceTooShort
      else .ok (upperList sequence)

/-! ### Mutation-finder ingestion (src/app/resistance/page.tsx) -/

/-- Failures of `parseSequenceFile`. -/
inductive PSError where
  /-- "File too large for browser processing. Please use a file smaller than 1GB." -/
  | fileTooLarge
  /-- rethrown `parseFastaContent` failure -/
  | parseFailed (e : Option FCError)
  deriving DecidableEq, Repr

/-- `parseSequenceFile(file)` from the mutation-finder page: a 1 GiB
ceiling, then `parseFastaContent`. -/
def parseSequenceFile (f : JsFile) : Except PSError (List Char) :=
  if f.size > 1 * 1024 * 1024 * 1024 then .error .fileTooLarge
  else
    let r := parseFastaContent f.text
    if r.isValid then .ok r.sequence
    else .error (.parseFailed r.error)

theorem upperList_length (l : List Char) : (upperList l).length = l.length := by
  simp [upperList]

theorem mem_fcLoop_ne_nil :
    ∀ (lines : List (List Char)) (found : Bool) (l : List Char),
      l ∈ fcLoop found lines → l ≠ [] := by
  intro lines
  induction lines with
  | nil => intro found l h; simp [fcLoop] at h
  | cons line rest ih =>
    intro found l hl
    unfold fcLoop at hl
    split at hl
    · split at hl
      · simp at hl
      · exact ih true l hl
    · split at hl
      · rcases List.mem_cons.mp hl with h | h
        · subst h
          rename_i hcond
          have htrim : (trim line).isEmpty = false := by
            simp only [Bool.and_eq_true, Bool.not_eq_true'] at hcond
            exact hcond.2
          have : trim line ≠ [] := by
            simpa [List.isEmpty_iff] using htrim
          intro hc
          exact this (by simpa [upperList] using hc)
        · exact ih found l h
      · exact ih found l hl

theorem parseFastaContent_sequence (c : List Char) :
    (parseFastaContent c).sequence = (fcLoop false (splitNL c)).flatten := by
  unfold parseFastaContent
  by_cases h : (fcLoop false (splitNL c)).isEmpty
  · have h' : fcLoop false (splitNL c) = [] := by
      simpa [List.isEmpty_iff] using h
    simp [h, h']
  · simp only [h, Bool.false_eq_true, if_false]
    split <;> rfl

theorem fcLoop_flatten_ne_nil (c : List Char)
    (h : ¬ (fcLoop false (splitNL c)).isEmpty = true) :
    (fcLoop false (splitNL c)).flatten ≠ [] := by
  intro hflat
  rcases List.exists_mem_of_ne_nil _ (by simpa [List.isEmpty_iff] using h) with ⟨l, hl⟩
  have hnil := mem_fcLoop_ne_nil (splitNL c) false l hl
  exact hnil ((List.flatten_eq_nil_iff.mp hflat) l hl)

/-- C5: `parseFastaContent` fails with its empty-sequence error exactly
when the extracted sequence is empty; a valid parse has length ≥ 1; on
the TB-checker's `getFirstSequence` pathway a successful parse has length
≥ 10, and once the earlier file checks pass, the too-short error occurs
exactly when the extracted sequence is shorter than 10 bases. -/
theorem claim_C5_empty_and_short (c : List Char) (f : JsFile) (s t : List Char) :
    ((parseFastaContent c).error = some FCError.noValidSequence ↔
      (parseFastaContent c).sequence = []) ∧
    ((parseFastaContent c).isValid = true →
      1 ≤ (parseFastaContent c).sequence.length) ∧
    (getFirstSequence f = .ok s → 10 ≤ s.length) ∧
    (f.size ≠ 0 → ¬ f.size > 3 * 1024 * 1024 * 1024 →
      ¬ (trim f.text).isEmpty = true →
      extractSequence (trim f.text) = .ok t →
      (getFirstSequence f = .error .sequenceTooShort ↔ t.length < 10)) := by
  refine ⟨?_, ?_, ?_, ?_⟩
  · unfold parseFastaContent
    by_cases h : (fcLoop false (splitNL c)).isEmpty
    · simp [h]
    · have hflat := fcLoop_flatten_ne_nil c h
      simp only [h, Bool.false_eq_true, if_false]
      split
      · simpa using hflat
      · simpa using hflat
  · unfold parseFastaContent
    by_cases h : (fcLoop false (splitNL c)).isEmpty
    · simp [h]
    · simp only [h, Bool.false_eq_true, if_false]
      split
      · simp
      · rename_i hvb
        have hv : validBasesTest (fcLoop false (splitNL c)).flatten = true := by
          simpa using hvb
        have h1 : (fcLoop false (splitNL c)).flatten.isEmpty = false := by
          simp only [validBasesTest, Bool.and_eq_true, Bool.not_eq_true'] at hv
          exact hv.1
        have h2 : (fcLoop false (splitNL c)).flatten ≠ [] := by
          intro hc
          rw [hc] at h1
          exact absurd h1 (by simp)
        intro _
        have hpos := List.length_pos.mpr h2
        dsimp only
        omega
  · intro hok
    unfold getFirstSequence at hok
    split at hok
    · cases hok
    · split at hok
      · cases hok
      · split at hok
        · cases hok
        · split at hok
          · cases hok
          · split at hok
            · cases hok
            · rename_i hlt
              cases hok
              rw [upperList_length]
              omega
  · intro h0 h3 hne hext
    unfold getFirstSequence
    rw [if_neg h0, if_neg h3, if_neg hne, hext]
    dsimp only
    constructor
    · intro h
      by_cases hlen : t.length < 10
      · exact hlen
      · rw [if_neg hlen] at h; cases h
    · intro hlen
      rw [if_pos hlen]

/-- Witness for C5: a 12-base single-record FASTA file parses on the
TB-checker pathway to a sequence of length at least 10. -/
theorem claim_C5_empty_and_short_witness :
    10 ≤ "ATGCATGCATGC".toList.length :=
  (claim_C5_empty_and_short ">a\nATGC".toList
    ⟨14, ">a\nATGCATGCATGC".toList⟩ "ATGCATGCATGC".toList []).2.2.1 (by rfl)

/-- C6: the TB-checker's `getFirstSequence` rejects files over 3 GiB and
the mutation-finder's `parseSequenceFile` rejects files over 1 GiB, each
with its file-too-large error, whatever the file's text is (so before any
sequence extraction). -/
theorem claim_C6_size_ceilings (f g : JsFile) :
    (f.size > 3 * 1024 * 1024 * 1024 →
      getFirstSequence f = .error GFSError.fileTooLarge) ∧
    (g.size > 1 * 1024 * 1024 * 1024 →
      parseSequenceFile g = .error PSError.fileTooLarge) := by
  constructor
  · intro h
    have h0 : f.size ≠ 0 := by omega
    simp [getFirstSequence, h, h0]
  · intro h
    simp [parseSequenceFile, h]

/-- Witness for C6 at one byte over each ceiling, with empty text. -/
theorem claim_C6_size_ceilings_witness :
    getFirstSequence ⟨3221225473, []⟩ = .error GFSError.fileTooLarge ∧
      parseSequenceFile ⟨1073741825, []⟩ = .error PSError.fileTooLarge :=
  ⟨(claim_C6_size_ceilings ⟨3221225473, []⟩ ⟨1073741825, []⟩).1 (by norm_num),
   (claim_C6_size_ceilings ⟨3221225473, []⟩ ⟨1073741825, []⟩).2 (by norm_num)⟩

theorem fcLoop_cons (found : Bool) (line : List Char) (rest : List (List Char)) :
    fcLoop found (line :: rest) =
      if startsWithGt line then (if found then [] else fcLoop true rest)
      else if found && !(trim line).isEmpty then
        upperList (trim line) :: fcLoop found rest
      else fcLoop found rest := rfl

theorem fcLoop_skip_pre (pre : List (List Char)) (rest : List (List Char))
    (hpre : ∀ l ∈ pre, startsWithGt l = false) :
    fcLoop false (pre ++ rest) = fcLoop false rest := by
  induction pre with
  | nil => rfl
  | cons line pre' ih =>
    have hline : startsWithGt line = false := hpre line (List.mem_cons_self _ _)
    have hrest : ∀ l ∈ pre', startsWithGt l = false :=
      fun l hl => hpre l (List.mem_cons_of_mem _ hl)
    rw [List.cons_append, fcLoop_cons, if_neg (by simp [hline]),
      if_neg (by simp)]
    exact ih hrest

theorem fcLoop_header (line : List Char) (rest : List (List Char))
    (h : startsWithGt line = true) :
    fcLoop false (line :: rest) = fcLoop true rest := by
  rw [fcLoop_cons, if_pos h, if_neg (by simp)]

theorem fcLoop_found_accum (mid : List (List Char)) (h2 : List Char)
    (post : List (List Char))
    (hmid : ∀ l ∈ mid, startsWithGt l = false)
    (hh2 : startsWithGt h2 = true) :
    fcLoop true (mid ++ h2 :: post) =
      (mid.filter (fun l => !(trim l).isEmpty)).map (fun l => upperList (trim l)) := by
  induction mid with
  | nil =>
    rw [List.nil_append, fcLoop_cons, if_pos hh2, if_pos rfl]
    rfl
  | cons line mid' ih =>
    have hline : startsWithGt line = false := hmid line (List.mem_cons_self _ _)
    have hrest : ∀ l ∈ mid', startsWithGt l = false :=
      fun l hl => hmid l (List.mem_cons_of_mem _ hl)
    rw [List.cons_append, fcLoop_cons, if_neg (by simp [hline])]
    by_cases htl : (trim line).isEmpty
    · rw [if_neg (by simp [htl]), ih hrest, List.filter_cons,
        if_neg (by simp [htl])]
    · rw [if_pos (by simp [htl]), ih hrest, List.filter_cons,
        if_pos (by simp [htl])]
      rfl

/-- C4: when the split of a FASTA input has a first header, then
non-header lines, then a second header, `parseFastaContent` returns
exactly the bases accumulated from the lines between the two headers
(trimmed, blank lines dropped, uppercased); everything from the second
header on is discarded. -/
theorem claim_C4_first_record_only (content : List Char)
    (pre mid post : List (List Char)) (h1 h2 : List Char)
    (hsplit : splitNL content = pre ++ h1 :: (mid ++ h2 :: post))
    (hpre : ∀ l ∈ pre, startsWithGt l = false)
    (hh1 : startsWithGt h1 = true)
    (hmid : ∀ l ∈ mid, startsWithGt l = false)
    (hh2 : startsWithGt h2 = true) :
    (parseFastaContent content).sequence =
      ((mid.filter (fun l => !(trim l).isEmpty)).map
        (fun l => upperList (trim l))).flatten := by
  rw [parseFastaContent_sequence, hsplit, fcLoop_skip_pre pre _ hpre,
    fcLoop_header h1 _ hh1, fcLoop_found_accum mid h2 post hmid hh2]

/-- Witness for C4 at the spec scenario: a two-record FASTA file parses
to the first record "ATGC" only. -/
theorem claim_C4_first_record_only_witness :
    (parseFastaContent ">seq1\nATGC\n>seq2\nGGGG\n".toList).sequence =
      "ATGC".toList := by
  have h := claim_C4_first_record_only ">seq1\nATGC\n>seq2\nGGGG\n".toList
    [] ["ATGC".toList] ["GGGG".toList, []] ">seq1".toList ">seq2".toList
    (by decide) (by decide) (by decide) (by decide) (by decide)
  rw [h]
  decide

theorem fastaLoop_cons (found : Bool) (line : List Char) (rest : List (List Char)) :
    fastaLoop found (line :: rest) =
      if (trim line).isEmpty then fastaLoop found rest
      else if startsWithGt (trim line) then (if found then [] else fastaLoop true rest)
      else if found then cleanLine (trim line) ++ fastaLoop found rest
      else fastaLoop found rest := rfl

theorem isBaseCI_cleanChar (c : Char) : isBaseCI (cleanChar c) = true := by
  unfold cleanChar
  split
  · assumption
  · decide

theorem cleanLine_all_baseCI (l : List Char) : (cleanLine l).all isBaseCI = true := by
  rw [cleanLine, List.all_map]
  simp [Function.comp_def, isBaseCI_cleanChar]

theorem fastaLoop_all_baseCI :
    ∀ (lines : List (List Char)) (found : Bool),
      (fastaLoop found lines).all isBaseCI = true := by
  intro lines
  induction lines with
  | nil => intro found; rfl
  | cons line rest ih =>
    intro found
    rw [fastaLoop_cons]
    split
    · exact ih found
    · split
      · split
        · rfl
        · exact ih true
      · split
        · rw [List.all_append]
          simp [cleanLine_all_baseCI, ih found]
        · exact ih found

theorem fastqExtract_all_baseCI (t : List Char) :
    (fastqExtract t).all isBaseCI = true := by
  unfold fastqExtract
  dsimp only
  split
  · exact cleanLine_all_baseCI _
  · rfl

theorem extractSequence_ok_all (t seq : List Char)
    (h : extractSequence t = .ok seq) : seq.all isBaseCI = true := by
  unfold extractSequence at h
  split at h
  · cases h
    exact fastaLoop_all_baseCI _ _
  · cases h
    exact fastqExtract_all_baseCI _
  · cases h

theorem isUpperBase_toUpper (c : Char) (h : isBaseCI c = true) :
    isUpperBase (Char.toUpper c) = true := by
  simp only [isBaseCI, Bool.or_eq_true, decide_eq_true_eq] at h
  rcases h with ((((((((h|h)|h)|h)|h)|h)|h)|h)|h)|h <;> subst h <;> decide

theorem upperList_all_upperBase (l : List Char) (h : l.all isBaseCI = true) :
    (upperList l).all isUpperBase = true := by
  rw [upperList, List.all_map]
  rw [List.all_eq_true] at h ⊢
  intro c hc
  simpa [Function.comp_def] using isUpperBase_toUpper c (h c hc)

/-- C8: a successful parse, through `parseFastaContent` or through the
TB-checker's `getFirstSequence`, yields a non-empty sequence whose
characters all lie in the uppercase alphabet {A,T,G,C,N}. -/
theorem claim_C8_alphabet_invariant (c : List Char) (f : JsFile) (s : List Char) :
    ((parseFastaContent c).isValid = true →
      (parseFastaContent c).sequence ≠ [] ∧
        (parseFastaContent c).sequence.all isUpperBase = true) ∧
    (getFirstSequence f = .ok s → s ≠ [] ∧ s.all isUpperBase = true) := by
  constructor
  · unfold parseFastaContent
    by_cases h : (fcLoop false (splitNL c)).isEmpty
    · simp [h]
    · simp only [h, Bool.false_eq_true, if_false]
      split
      · simp
      · rename_i hvb
        have hv : validBasesTest (fcLoop false (splitNL c)).flatten = true := by
          simpa using hvb
        simp only [validBasesTest, Bool.and_eq_true, Bool.not_eq_true'] at hv
        intro _
        dsimp only
        refine ⟨?_, hv.2⟩
        intro hc
        rw [hc] at hv
        exact absurd hv.1 (by simp)
  · intro hok
    unfold getFirstSequence at hok
    split at hok
    · cases hok
    · split at hok
      · cases hok
      · split at hok
        · cases hok
        · rcases hext : extractSequence (trim f.text) with e | seq
          · rw [hext] at hok
            simp at hok
          · rw [hext] at hok
            dsimp only at hok
            split at hok
            · cases hok
            · rename_i hlen
              cases hok
              have hall := extractSequence_ok_all (trim f.text) seq hext
              refine ⟨?_, upperList_all_upperBase seq hall⟩
              intro hc
              have h0 : (upperList seq).length = 0 := by rw [hc]; rfl
              rw [upperList_length] at h0
              omega

/-- Witness for C8: a single-record FASTA file with lowercase bases
parses (via `parseFastaContent`) to a non-empty uppercase sequence. -/
theorem claim_C8_alphabet_invariant_witness :
    (parseFastaContent ">a\natgc".toList).sequence ≠ [] ∧
      (parseFastaContent ">a\natgc".toList).sequence.all isUpperBase = true :=
  (claim_C8_alphabet_invariant ">a\natgc".toList ⟨0, []⟩ []).1 (by decide)

/-- C3 counterexample: in the TB-checker's FASTA ingestion an
out-of-alphabet character does NOT cause rejection: a FASTA file whose
bases contain `X` parses successfully, with the `X` coerced to `N`. -/
theorem claim_C3_counterexample :
    getFirstSequence ⟨15, ">h\nAAAAAAAAAAX".toList⟩ =
      Except.ok "AAAAAAAAAAN".toList := by rfl

/-- C3 amended: out-of-alphabet characters are replaced with N in both
the FASTQ and the FASTA branches of the TB-checker's `getFirstSequence`;
only the `parseFastaContent` pathway rejects a sequence containing an
out-of-alphabet character outright. -/
theorem claim_C3_amended (c : List Char) :
    ((parseFastaContent c).sequence.all isUpperBase = false →
      (parseFastaContent c).isValid = false ∧
        (parseFastaContent c).error = some FCError.invalidAlphabet) ∧
    (∀ ch : Char, isBaseCI ch = false → cleanChar ch = 'N') ∧
    (∀ (found : Bool) (lines : List (List Char)),
      (fastaLoop found lines).all isBaseCI = true) ∧
    (∀ t : List Char, (fastqExtract t).all isBaseCI = true) := by
  refine ⟨?_, ?_, fun found lines => fastaLoop_all_baseCI lines found,
    fastqExtract_all_baseCI⟩
  · unfold parseFastaContent
    by_cases h : (fcLoop false (splitNL c)).isEmpty
    · simp [h]
    · simp only [h, Bool.false_eq_true, if_false]
      split
      · intro _
        exact ⟨rfl, rfl⟩
      · rename_i hvb
        have hv : validBasesTest (fcLoop false (splitNL c)).flatten = true := by
          simpa using hvb
        simp only [validBasesTest, Bool.and_eq_true] at hv
        intro hbad
        dsimp only at hbad
        rw [hv.2] at hbad
        cases hbad
  · intro ch h
    unfold cleanChar
    rw [if_neg]
    simp [h]

/-- Witness for C3 amended: the out-of-alphabet character X is coerced
to N by the cleaning step of `getFirstSequence`. -/
theorem claim_C3_amended_witness : cleanChar 'X' = 'N' :=
  (claim_C3_amended []).2.1 'X' (by decide)

/-! ### CSV ingestion for the organ predictor (src/app/predictor/page.tsx) -/

/-- `s.trim().replace(/"/g, "")`, the cell cleaning applied to every
header and value. -/
def cleanCell (l : List Char) : List Char :=
  (trim l).filter (fun c => c ≠ '"')

/-- A parsed CSV row, modelling a JavaScript object: key/value pairs in
insertion order, `none` standing for `undefined`. -/
abbrev JsObj := List (List Char × Option (List Char))

/-- Property read `row[k]`: the stored value, or `undefined` when the key
is absent. -/
def jsGet : JsObj → List Char → Option (List Char)
  | [], _ => none
  | p :: rest, k => if p.1 = k then p.2 else jsGet rest k

/-- Property write `row[k] = v`: overwrite in place, else append. -/
def jsSet : JsObj → List Char → Option (List Char) → JsObj
  | [], k, v => [(k, v)]
  | p :: rest, k, v => if p.1 = k then (k, v) :: rest else p :: jsSet rest k v

/-- `headers.forEach((header, index) => row[header] = values[index])`.
The call sites guarantee `values.length = headers.length`, so the zip
loses nothing. -/
def buildRow (headers values : List (List Char)) : JsObj :=
  (headers.zip values).foldl (fun row hv => jsSet row hv.1 (some hv.2)) []

/-- The required column name. -/
def typeOfMutationKey : List Char := "Type of Mutation".toList

/-- The recognized synonym column names, in the order the code tries
them. -/
def alternativeNames : List (List Char) :=
  ["Type of mutation".toList, "Mutation Type".toList,
   "mutation_type".toList, "variant_type".toList]

/-- `text.split("\n").filter(line => line.trim())`. -/
def csvLines (text : List Char) : List (List Char) :=
  (splitNL text).filter (fun l => !(trim l).isEmpty)

/-- The cleaned header cells of the first line. -/
def headersOf (text : List Char) : List (List Char) :=
  (((csvLines text).headD []).splitOn ',').map cleanCell

/-- The data rows: every line after the first whose cell count matches
the header count. -/
def csvDataRows (text : List Char) : List JsObj :=
  ((csvLines text).tail).filterMap (fun line =>
    let values := (line.splitOn ',').map cleanCell
    if values.length = (headersOf text).length then
      some (buildRow (headersOf text) values)
    else none)

/-- The error message thrown when neither the required column nor any
synonym is present: it names the missing column and lists the columns
actually found. -/
def missingColumnsMessage (headers : List (List Char)) : List Char :=
  "Missing required columns: Type of Mutation. Found columns: ".toList ++
    List.intercalate ", ".toList headers

/-- `parseCSVFile(file)` on the file text, with thrown `Error` messages
as the error values. -/
def parseCSVFile (text : List Char) : Except (List Char) (List JsObj) :=
  if (csvLines text).length < 2 then
    .error "CSV file must contain at least a header and one data row".toList
  else if typeOfMutationKey ∈ headersOf text then .ok (csvDataRows text)
  else
    match alternativeNames.find? (fun a => decide (a ∈ headersOf text)) with
    | some alt =>
      .ok ((csvDataRows text).map
        (fun row => jsSet row typeOfMutationKey (jsGet row alt)))
    | none => .error (missingColumnsMessage (headersOf text))

theorem jsGet_jsSet_self (row : JsObj) (k : List Char) (v : Option (List Char)) :
    jsGet (jsSet row k v) k = v := by
  induction row with
  | nil => simp [jsSet, jsGet]
  | cons p rest ih =>
    by_cases h : p.1 = k
    · simp [jsSet, jsGet, h]
    · simp [jsSet, jsGet, h, ih]

theorem jsGet_jsSet_ne (row : JsObj) (k k' : List Char) (v : Option (List Char))
    (hne : k' ≠ k) : jsGet (jsSet row k v) k' = jsGet row k' := by
  induction row with
  | nil => simp [jsSet, jsGet, Ne.symm hne]
  | cons p rest ih =>
    by_cases h : p.1 = k
    · simp [jsSet, jsGet, h, Ne.symm hne]
    · simp only [jsSet, jsGet, if_neg h]
      by_cases h' : p.1 = k'
      · simp [jsGet, h']
      · simp [jsGet, h', ih]

theorem alternativeNames_ne_key : ∀ a ∈ alternativeNames, a ≠ typeOfMutationKey := by
  decide

/-- C7: if the cleaned header row contains neither "Type of Mutation" nor
any recognized synonym, `parseCSVFile` fails with the message naming the
missing column and listing the found columns; if a synonym is found,
parsing succeeds and every returned row exposes the synonym's value under
the key "Type of Mutation". -/
theorem claim_C7_csv_required_column (text : List Char) :
    (2 ≤ (csvLines text).length →
      typeOfMutationKey ∉ headersOf text →
      (∀ a ∈ alternativeNames, a ∉ headersOf text) →
      parseCSVFile text = .error (missingColumnsMessage (headersOf text))) ∧
    (∀ a, 2 ≤ (csvLines text).length →
      typeOfMutationKey ∉ headersOf text →
      alternativeNames.find? (fun x => decide (x ∈ headersOf text)) = some a →
      ∃ rows, parseCSVFile text = .ok rows ∧
        ∀ r ∈ rows, jsGet r typeOfMutationKey = jsGet r a) := by
  constructor
  · intro hlen hmiss halts
    unfold parseCSVFile
    rw [if_neg (by omega), if_neg hmiss]
    have hfind : alternativeNames.find?
        (fun a => decide (a ∈ headersOf text)) = none := by
      apply List.find?_eq_none.mpr
      intro a ha
      simpa using halts a ha
    rw [hfind]
  · intro a hlen hmiss hfind
    unfold parseCSVFile
    rw [if_neg (by omega), if_neg hmiss, hfind]
    refine ⟨_, rfl, ?_⟩
    intro r hr
    rcases List.mem_map.mp hr with ⟨row, hrow, hreq⟩
    subst hreq
    have hane : a ≠ typeOfMutationKey :=
      alternativeNames_ne_key a (List.mem_of_find?_eq_some hfind)
    rw [jsGet_jsSet_self, jsGet_jsSet_ne row typeOfMutationKey a _ hane]

/-- Witness for C7: a CSV whose only column is the synonym
"mutation_type" parses, and its row exposes the value under
"Type of Mutation". -/
theorem claim_C7_csv_required_column_witness :
    ∃ rows, parseCSVFile "mutation_type\nmissense_variant".toList = .ok rows ∧
      ∀ r ∈ rows, jsGet r typeOfMutationKey = jsGet r "mutation_type".toList :=
  (claim_C7_csv_required_column "mutation_type\nmissense_variant".toList).2
    "mutation_type".toList (by decide) (by decide) (by rfl)

/-! ### Resistance predictor (src/components/resistance-predictor.tsx) -/

def resistantLabel : List Char := "Resistant".toList

def notResistantLabel : List Char := "Not Resistant".toList

/-- The form fields of the resistance predictor; `pos` is
`Number.parseInt` of the numeric position input. -/
structure ResistanceInput where
  pos : Int
  ref : List Char
  alt : List Char
  mutationType : List Char

/-- The `PredictionResult` record built by `predictResistance`. -/
structure ResistancePrediction where
  pos : Int
  ref : List Char
  alt : List Char
  mutationType : List Char
  resistance : List Char
  antibody : List Char
  confidence : ℚ

/-- `haystack.includes(needle)`, JavaScript substring containment. -/
def includesSub (needle : List Char) : List Char → Bool
  | [] => needle.isEmpty
  | c :: rest => List.isPrefixOf needle (c :: rest) || includesSub needle rest

/-- The rule chain of `predictResistance` before the random flip, as
(resistance, antibody, confidence), starting from the defaults
("Not Resistant", "Isoniazid", 0.85); inner conditions that fail leave
the defaults in place. -/
def baseRule (inp : ResistanceInput) : List Char × List Char × ℚ :=
  if 4400000 ≤ inp.pos ∧ inp.pos ≤ 4410000 then
    if inp.ref = "C".toList ∧ inp.alt = "T".toList then
      (resistantLabel, "Streptomycin".toList, 92/100)
    else (notResistantLabel, "Isoniazid".toList, 85/100)
  else if 760000 ≤ inp.pos ∧ inp.pos ≤ 770000 then
    if includesSub "missense".toList inp.mutationType then
      (resistantLabel, "Rifampin".toList, 88/100)
    else (notResistantLabel, "Isoniazid".toList, 85/100)
  else if inp.ref = "G".toList ∧ inp.alt = "A".toList ∧
      includesSub "missense".toList inp.mutationType then
    (resistantLabel, "Ethambutol".toList, 79/100)
  else (notResistantLabel, "Isoniazid".toList, 85/100)

/-- `predictResistance`: the rule chain, then the random 30 % verdict
flip (`flip` is the outcome of `Math.random() > 0.7`, `flipConf` the
confidence drawn when flipping), then the final record in which a
"Resistant" verdict forces the antibody to "None". -/
def predictResistance (inp : ResistanceInput) (flip : Bool) (flipConf : ℚ) :
    ResistancePrediction :=
  let r := baseRule inp
  let resistance :=
    if flip then
      (if r.1 = resistantLabel then notResistantLabel else resistantLabel)
    else r.1
  let confidence := if flip then flipConf else r.2.2
  { pos := inp.pos, ref := inp.ref, alt := inp.alt,
    mutationType := inp.mutationType,
    resistance := resistance,
    antibody := if resistance = resistantLabel then "None".toList else r.2.1,
    confidence := confidence }

theorem baseRule_antibody (inp : ResistanceInput) :
    (baseRule inp).2.1 = "Isoniazid".toList ∨
    (baseRule inp).2.1 = "Streptomycin".toList ∨
    (baseRule inp).2.1 = "Rifampin".toList ∨
    (baseRule inp).2.1 = "Ethambutol".toList := by
  unfold baseRule
  split_ifs <;> decide

/-- C10: for every input and every outcome of the random flip, a
"Resistant" prediction carries antibody "None", and a "Not Resistant"
prediction carries one of the four named drugs. -/
theorem claim_C10_resistance_antibody (inp : ResistanceInput) (flip : Bool)
    (flipConf : ℚ) :
    ((predictResistance inp flip flipConf).resistance = resistantLabel →
      (predictResistance inp flip flipConf).antibody = "None".toList) ∧
    ((predictResistance inp flip flipConf).resistance = notResistantLabel →
      ((predictResistance inp flip flipConf).antibody = "Isoniazid".toList ∨
       (predictResistance inp flip flipConf).antibody = "Streptomycin".toList ∨
       (predictResistance inp flip flipConf).antibody = "Rifampin".toList ∨
       (predictResistance inp flip flipConf).antibody = "Ethambutol".toList)) := by
  unfold predictResistance
  dsimp only
  constructor
  · intro h
    rw [if_pos h]
  · intro h
    have hne : (if flip then
        (if (baseRule inp).1 = resistantLabel then notResistantLabel
          else resistantLabel)
        else (baseRule inp).1) ≠ resistantLabel := by
      rw [h]
      decide
    rw [if_neg hne]
    exact baseRule_antibody inp

/-- Witness for C10: the default form input with no flip predicts
"Not Resistant" with one of the four drugs. -/
theorem claim_C10_resistance_antibody_witness :
    (predictResistance ⟨467, "A".toList, "G".toList,
        "missense_variant".toList⟩ false (85/100)).antibody =
          "Isoniazid".toList ∨
    (predictResistance ⟨467, "A".toList, "G".toList,
        "missense_variant".toList⟩ false (85/100)).antibody =
          "Streptomycin".toList ∨
    (predictResistance ⟨467, "A".toList, "G".toList,
        "missense_variant".toList⟩ false (85/100)).antibody =
          "Rifampin".toList ∨
    (predictResistance ⟨467, "A".toList, "G".toList,
        "missense_variant".toList⟩ false (85/100)).antibody =
          "Ethambutol".toList :=
  (claim_C10_resistance_antibody ⟨467, "A".toList, "G".toList,
    "missense_variant".toList⟩ false (85/100)).2 (by decide)

end BioIntel
